import Mathlib

/-!
Verification development for the client-side data consistency layer of the
RocketTechSolution repository: the TTL api cache (`apiCache.ts`), the
operation monitor (`dbMonitor.ts`), the performance monitor
(`performanceMonitor.ts`), the remote client (`caseStudiesApi.ts`) and the
reconciliation engine (`caseStudiesSync.ts`).

Times are modelled in milliseconds.  JS numbers used as clock readings are
modelled as `ℚ` where fractional arithmetic matters (`performance.now`,
TTL thresholds) and as `Nat` where the code only ever handles integers.
Promise rejection / `throw` is modelled with `Except`/`Option`; the
browser `Map` backing the cache is modelled as a function
`String → Option _`.
-/

namespace RocketTech

/-- The uniform result envelope `{success, data?, error?}` returned by every
method of `CaseStudiesApi` (`interface ApiResponse<T>` in
`caseStudiesApi.ts`). -/
structure ApiResponse (α : Type) where
  success : Bool
  data : Option α
  error : Option String
  deriving Repr, DecidableEq

/-- Recommendations produced by `CaseStudiesSync.getSyncStatus`. -/
inductive SyncRecommendation where
  | noSyncNeeded
  | syncToDb
  | syncFromDb
  | conflict
  deriving Repr, DecidableEq

/-- The recommendation computed by `CaseStudiesSync.getSyncStatus`
(`caseStudiesSync.ts` lines 278-290) as a function of `local.count` and
`database.count`, mirroring the `if`/`else if` chain of the source. -/
def getSyncRecommendation (localCount dbCount : Nat) : SyncRecommendation :=
  if localCount = 0 ∧ dbCount = 0 then .noSyncNeeded
  else if localCount > 0 ∧ dbCount = 0 then .syncToDb
  else if localCount = 0 ∧ dbCount > 0 then .syncFromDb
  else if localCount ≠ dbCount then .conflict
  else .noSyncNeeded

/-- A cache entry as stored by `ApiCache` (`interface CacheItem<T>` in
`apiCache.ts`): the payload, `timestamp = Date.now()` at creation and
`expiry = Date.now() + ttl`. -/
structure CacheItem (α : Type) where
  data : α
  timestamp : ℚ
  expiry : ℚ
  deriving Repr, DecidableEq

/-- Observable state of the `ApiCache` singleton restricted to one fixed key,
together with the bookkeeping needed to talk about concurrency:
`cache` is the entry currently stored under the key (`this.cache.get(key)`),
`inflight` is the number of `fetchFn` invocations started and not yet
settled (background refreshes as well as the awaited miss-path fetch), and
`fetches` is the total number of `fetchFn` invocations so far. -/
structure KeyCacheState (α : Type) where
  cache : Option (CacheItem α)
  inflight : Nat
  fetches : Nat
  deriving Repr, DecidableEq

/-- Events against one cache key under the single-threaded cooperative
scheduling model: a `getOrFetch` invocation at time `t`, or the settling at
time `t` of one in-flight `fetchFn` (`some v` = the promise resolved with
`v`, `none` = it rejected). -/
inductive CacheEv (α : Type) where
  | call (t : ℚ)
  | complete (t : ℚ) (res : Option α)

/-- The synchronous prefix of `ApiCache.getOrFetch` (`apiCache.ts` lines
397-421) for one key: on a hit (`this.cache.get(key)` — the raw map read,
no expiry check) it compares `timeRemaining = cached.expiry - Date.now()`
against `refreshTime = ttl * refreshThreshold` and, when
`timeRemaining < refreshTime`, calls `refreshInBackground` — which starts
`fetchFn()` immediately and is not awaited — then returns `cached.data`.
On a miss it starts `fetchFn()` and suspends (result delivered by a later
`CacheEv.complete`). -/
def getOrFetchStep (ttl r : ℚ) (s : KeyCacheState α) (t : ℚ) :
    KeyCacheState α × Option α :=
  match s.cache with
  | some item =>
      if item.expiry - t < ttl * r then
        ({ s with inflight := s.inflight + 1, fetches := s.fetches + 1 },
         some item.data)
      else (s, some item.data)
  | none =>
      ({ s with inflight := s.inflight + 1, fetches := s.fetches + 1 }, none)

/-- Settling of one in-flight `fetchFn` at time `t`.  On resolution the
value is stored via `this.set(key, data, ttl)` (both on the miss path and
in `refreshInBackground`), creating a fresh entry with
`timestamp = t, expiry = t + ttl`; on rejection nothing is stored
(`refreshInBackground` swallows the error, the miss path propagates it to
the caller) — in both cases the cache is left untouched. -/
def completeStep (ttl : ℚ) (s : KeyCacheState α) (t : ℚ) (res : Option α) :
    KeyCacheState α :=
  if s.inflight = 0 then s
  else
    match res with
    | some v =>
        { cache := some ⟨v, t, t + ttl⟩, inflight := s.inflight - 1,
          fetches := s.fetches }
    | none => { s with inflight := s.inflight - 1 }

/-- One step of the single-key cache trace semantics. -/
def cacheStep (ttl r : ℚ) (s : KeyCacheState α) : CacheEv α → KeyCacheState α
  | .call t => (getOrFetchStep ttl r s t).1
  | .complete t res => completeStep ttl s t res

/-- Run a trace of events against one cache key. -/
def cacheRun (ttl r : ℚ) (s : KeyCacheState α) (evs : List (CacheEv α)) :
    KeyCacheState α :=
  evs.foldl (cacheStep ttl r) s

/-- C1.  The code tracks no in-flight refresh keys: with a cached entry
expiring at `t = 100`, `ttl = 100`, `refreshThreshold = 0.8`, a
`getOrFetch` call at `t = 50` starts a background refresh (one in
flight), and a second call at `t = 60`, before that refresh settles,
starts a second concurrent `fetchFn` invocation — two refreshes in
flight, contradicting single-flight. -/
theorem second_call_starts_second_refresh :
    (cacheRun 100 (8 / 10)
        (⟨some ⟨(0 : Nat), 0, 100⟩, 0, 0⟩ : KeyCacheState Nat)
        [CacheEv.call 50]).inflight = 1 ∧
    (cacheRun 100 (8 / 10)
        (⟨some ⟨(0 : Nat), 0, 100⟩, 0, 0⟩ : KeyCacheState Nat)
        [CacheEv.call 50, CacheEv.call 60]).inflight = 2 := by
  constructor <;> norm_num [cacheRun, cacheStep, getOrFetchStep, List.foldl]

/-- C2.  Refresh-ahead trigger threshold: with `ttl = 1000`,
`refreshThreshold = 0.8` and a live entry whose remaining lifetime is
`500`, the code schedules a background refresh (because
`500 < ttl * refreshThreshold = 800`), although the remaining lifetime is
not below `(1 - refreshThreshold) * ttl = 200` — the bound stated by the
specification and by the code's own comment (refresh once 80% of the TTL
has passed).  The call still returns the cached value immediately. -/
theorem refresh_triggered_above_spec_bound :
    (getOrFetchStep 1000 (8 / 10)
        (⟨some ⟨(7 : Nat), 0, 1000⟩, 0, 0⟩ : KeyCacheState Nat) 500).2
      = some 7 ∧
    (getOrFetchStep 1000 (8 / 10)
        (⟨some ⟨(7 : Nat), 0, 1000⟩, 0, 0⟩ : KeyCacheState Nat) 500).1.fetches
      = 1 ∧
    (0 : ℚ) < 1000 - 500 ∧
    ¬((1000 : ℚ) - 500 < (1 - 8 / 10) * 1000) := by
  refine ⟨?_, ?_, by norm_num, by norm_num⟩ <;>
    norm_num [getOrFetchStep]

/-- The browser `Map<string, CacheItem<any>>` backing the `ApiCache`
singleton, modelled as a partial function from keys to entries. -/
def CacheMap (α : Type) : Type := String → Option (CacheItem α)

/-- `ApiCache.delete(key)` — `this.cache.delete(key)`. -/
def cacheDelete (m : CacheMap α) (k : String) : CacheMap α :=
  fun q => if q = k then none else m q

/-- `ApiCache.cleanup()` — removes every entry with `now > item.expiry`. -/
def cacheCleanup (now : ℚ) (m : CacheMap α) : CacheMap α :=
  fun q =>
    match m q with
    | some it => if now > it.expiry then none else some it
    | none => none

/-- `ApiCache.set(key, data, ttl)` — stores
`{data, timestamp: Date.now(), expiry: Date.now() + ttl}` and then runs the
opportunistic `cleanup()`. -/
def cacheSet (m : CacheMap α) (k : String) (v : α) (ttl now : ℚ) : CacheMap α :=
  cacheCleanup now (fun q => if q = k then some ⟨v, now, now + ttl⟩ else m q)

/-- `ApiCache.clear()`. -/
def cacheClear (α : Type) : CacheMap α := fun _ => none

/-- `CACHE_KEYS.CASE_STUDIES` in `apiCache.ts`. -/
def caseStudiesKey : String := "case_studies"

/-- `CACHE_KEYS.CASE_STUDY(id)` in `apiCache.ts`. -/
def caseStudyKey (id : String) : String := "case_study_" ++ id

/-- `CACHE_KEYS.HOMEPAGE_SOLUTIONS` in `apiCache.ts`. -/
def homepageSolutionsKey : String := "homepage_solutions"

/-- The effect of `CaseStudiesApi.updateCaseStudy(id, patch)`
(`caseStudiesApi.ts` lines 741-760) on the `apiCache` map: the PUT request
itself never touches the cache; afterwards, `if (result.success)` the
three keys `CACHE_KEYS.CASE_STUDIES`, `CACHE_KEYS.CASE_STUDY(id)` and
`CACHE_KEYS.HOMEPAGE_SOLUTIONS` are deleted in that order, otherwise the
map is left untouched. -/
def updateCaseStudyCache (id : String) (result : ApiResponse β)
    (m : CacheMap α) : CacheMap α :=
  if result.success then
    cacheDelete (cacheDelete (cacheDelete m caseStudiesKey) (caseStudyKey id))
      homepageSolutionsKey
  else m

/-- C3.  After an `updateCaseStudy(id, patch)` call whose envelope reports
success, the cache entries under the list-all key, the by-id key for `id`
and the homepage-subset key are all deleted while every other key is
untouched; after a failure envelope, every cache entry is exactly as
before the call. -/
theorem updateCaseStudy_invalidation (id : String) (result : ApiResponse Nat)
    (m : CacheMap Nat) :
    (result.success = true →
       updateCaseStudyCache id result m caseStudiesKey = none ∧
       updateCaseStudyCache id result m (caseStudyKey id) = none ∧
       updateCaseStudyCache id result m homepageSolutionsKey = none ∧
       (∀ k, k ≠ caseStudiesKey → k ≠ caseStudyKey id →
          k ≠ homepageSolutionsKey →
          updateCaseStudyCache id result m k = m k)) ∧
    (result.success = false →
       ∀ k, updateCaseStudyCache id result m k = m k) := by
  constructor
  · intro hs
    refine ⟨?_, ?_, ?_, ?_⟩
    · unfold updateCaseStudyCache cacheDelete
      rw [hs]
      split_ifs <;> simp_all
    · unfold updateCaseStudyCache cacheDelete
      rw [hs]
      split_ifs <;> simp_all
    · unfold updateCaseStudyCache cacheDelete
      rw [hs]
      split_ifs <;> simp_all
    · intro k h1 h2 h3
      simp [updateCaseStudyCache, hs, cacheDelete, h1, h2, h3]
  · intro hs
    intro k
    simp [updateCaseStudyCache, hs]

/-- Witness for C3: concretely, after a success envelope the three keys
are gone and an unrelated key keeps its entry; after a failure envelope
the unrelated key and the list-all key keep their entries. -/
theorem updateCaseStudy_invalidation_witness :
    updateCaseStudyCache "x" (⟨true, some 1, none⟩ : ApiResponse Nat)
        (fun _ => some ⟨5, 0, 10⟩) caseStudiesKey = none ∧
    updateCaseStudyCache "x" (⟨true, some 1, none⟩ : ApiResponse Nat)
        (fun _ => some ⟨5, 0, 10⟩) (caseStudyKey "x") = none ∧
    updateCaseStudyCache "x" (⟨true, some 1, none⟩ : ApiResponse Nat)
        (fun _ => some ⟨5, 0, 10⟩) homepageSolutionsKey = none ∧
    updateCaseStudyCache "x" (⟨true, some 1, none⟩ : ApiResponse Nat)
        (fun _ => some ⟨5, 0, 10⟩) "other" = some ⟨5, 0, 10⟩ ∧
    updateCaseStudyCache "x" (⟨false, none, some "err"⟩ : ApiResponse Nat)
        (fun _ => some ⟨5, 0, 10⟩) caseStudiesKey = some ⟨5, 0, 10⟩ := by
  have h := updateCaseStudy_invalidation "x" (⟨true, some 1, none⟩ : ApiResponse Nat)
    (fun _ => some ⟨5, 0, 10⟩)
  have hf := updateCaseStudy_invalidation "x"
    (⟨false, none, some "err"⟩ : ApiResponse Nat) (fun _ => some ⟨5, 0, 10⟩)
  have hs := h.1 rfl
  exact ⟨hs.1, hs.2.1, hs.2.2.1,
    hs.2.2.2 "other" (by decide) (by decide) (by decide), hf.2 rfl caseStudiesKey⟩

/-- The distinct ways the `try` block of `CaseStudiesApi.makeRequest`
(`caseStudiesApi.ts` lines 646-695) can play out, as seen from the code:
the transport rejects (or `fetch` throws); a 2xx response whose `json()`
either parses to an envelope or throws; or a non-2xx response, from whose
body a string `error` field may or may not be extractable
(`response.json().catch(() => ({}))`). -/
inductive HttpOutcome (α : Type) where
  | reject (msg : String)
  | okResponse (body : Except String (ApiResponse α))
  | errResponse (status : Nat) (errorField : Option String)

/-- The fallback message `HTTP error! status: ${response.status}`. -/
def httpErrorMessage (status : Nat) : String :=
  "HTTP error! status: " ++ toString status

/-- The `try` block of `makeRequest`: `Except.error msg` models a thrown
JS exception carrying `msg`.  A rejected transport rethrows; a non-2xx
response throws `new Error(errorData.error || `fallback`)`; a 2xx body
that fails to parse rethrows; a parsed 2xx body is returned as-is (the
monitor bookkeeping is a side effect with no influence on the result). -/
def makeRequestTry (o : HttpOutcome α) : Except String (ApiResponse α) :=
  match o with
  | .reject msg => .error msg
  | .okResponse (.error msg) => .error msg
  | .okResponse (.ok body) => .ok body
  | .errResponse status errorField =>
      .error (errorField.getD (httpErrorMessage status))

/-- `makeRequest` = the `try` block plus its `catch`, which converts any
thrown error into the envelope `{success: false, error: errorMessage}`. -/
def makeRequest (o : HttpOutcome α) : ApiResponse α :=
  match makeRequestTry o with
  | .ok body => body
  | .error msg => ⟨false, none, some msg⟩

/-- C4.  `makeRequest` never lets an exception cross the client boundary:
every throw inside the `try` block is folded into a
`{success: false, error}` envelope carrying its message; in particular a
transport rejection yields the rejection message, and a non-2xx response
yields `success = false` with the remote error message, falling back to
the generic HTTP-status message; a parsed 2xx body is returned as-is. -/
theorem makeRequest_never_raises (o : HttpOutcome Nat) :
    (∀ msg, makeRequestTry o = .error msg →
       makeRequest o = ⟨false, none, some msg⟩) ∧
    (∀ msg, o = .reject msg → makeRequest o = ⟨false, none, some msg⟩) ∧
    (∀ status errorField, o = .errResponse status errorField →
       makeRequest o =
         ⟨false, none, some (errorField.getD (httpErrorMessage status))⟩) ∧
    (∀ body, o = .okResponse (.ok body) → makeRequest o = body) := by
  refine ⟨fun msg h => ?_, fun msg h => ?_, fun status errorField h => ?_,
    fun body h => ?_⟩
  · simp only [makeRequest, h]
  · subst h; simp [makeRequest, makeRequestTry]
  · subst h; simp [makeRequest, makeRequestTry]
  · subst h; simp [makeRequest, makeRequestTry]

/-- Witness for C4: a 500 response with no parseable error field resolves
to the generic message, and a transport rejection resolves to its own
message — neither raises. -/
theorem makeRequest_never_raises_witness :
    makeRequest (HttpOutcome.errResponse (α := Nat) 500 none) =
      ⟨false, none, some "HTTP error! status: 500"⟩ ∧
    makeRequest (HttpOutcome.reject (α := Nat) "Failed to fetch") =
      ⟨false, none, some "Failed to fetch"⟩ := by
  constructor
  · exact (makeRequest_never_raises _).2.2.1 500 none rfl
  · exact (makeRequest_never_raises _).2.1 "Failed to fetch" rfl

/-- C5.  Sync status classification is a pure function of the two counts:
`noSyncNeeded` iff both are zero or the counts are equal, `syncToDb`
(push) iff local is non-empty and remote empty, `syncFromDb` (pull) iff
local is empty and remote non-empty, and `conflict` iff both are non-empty
with differing counts. -/
theorem getSyncRecommendation_classification (L R : Nat) :
    (getSyncRecommendation L R = .noSyncNeeded ↔ ((L = 0 ∧ R = 0) ∨ L = R)) ∧
    (getSyncRecommendation L R = .syncToDb ↔ (0 < L ∧ R = 0)) ∧
    (getSyncRecommendation L R = .syncFromDb ↔ (L = 0 ∧ 0 < R)) ∧
    (getSyncRecommendation L R = .conflict ↔ (0 < L ∧ 0 < R ∧ L ≠ R)) := by
  unfold getSyncRecommendation
  split_ifs <;> simp_all <;> omega

/-- The `direction` values returned by `CaseStudiesSync.autoSync`:
`'toDb'` (push), `'fromDb'` (pull) or `'local'` (no sync performed). -/
inductive SyncDirection where
  | toDb
  | fromDb
  | localData
  deriving Repr, DecidableEq

/-- The condition
`!dbResponse.success || !dbResponse.data || dbResponse.data.length === 0`
guarding the push branch of `autoSync` (`caseStudiesSync.ts` line 217):
the remote collection is unreadable (failure envelope or no payload) or
empty. -/
def dbEmptyOrUnreadable (db : ApiResponse (List α)) : Bool :=
  !db.success || db.data.isNone || (db.data.getD []).isEmpty

/-- The condition
`dbResponse.success && dbResponse.data && dbResponse.data.length > 0`
guarding the pull branches of `autoSync` (lines 225 and 233): the remote
collection is readable and non-empty. -/
def dbHasData (db : ApiResponse (List α)) : Bool :=
  db.success && db.data.isSome && !(db.data.getD []).isEmpty

/-- `CaseStudiesSync.autoSync` (`caseStudiesSync.ts` lines 205-250) as a
function of the two classification reads: the local mirror contents `lc`
(`this.getLocalCases()`) and the remote list response `db`
(`caseStudiesApi.getAllCaseStudies()`).  Returns the direction taken and
the `cases` list of the result; `fromDbCases` abstracts the list produced
by the inner `syncFromDatabase()` call on the pull branches.  Exactly the
`toDb` branch performs the push I/O and exactly the `fromDb` branches
perform the pull I/O; the fallback branch performs no further I/O. -/
def autoSyncResult (lc : List α) (db : ApiResponse (List α))
    (fromDbCases : List α) : SyncDirection × List α :=
  if dbEmptyOrUnreadable db = true ∧ 0 < lc.length then (.toDb, lc)
  else if lc.length = 0 ∧ dbHasData db = true then (.fromDb, fromDbCases)
  else if dbHasData db = true then (.fromDb, fromDbCases)
  else (.localData, lc)

/-- C6.  Auto-sync direction policy: the push branch is taken exactly when
the local mirror is non-empty and the remote collection is empty or
unreadable; a pull is performed exactly when the remote collection is
readable and non-empty (in particular also when both collections are
non-empty — remote preferred); and when both collections are empty the
fallback branch is taken, which performs no sync I/O and reports success
with the empty `cases` list. -/
theorem autoSync_policy (lc : List Nat) (db : ApiResponse (List Nat))
    (fromDbCases : List Nat) :
    ((autoSyncResult lc db fromDbCases).1 = .toDb ↔
       (lc ≠ [] ∧ dbEmptyOrUnreadable db = true)) ∧
    ((autoSyncResult lc db fromDbCases).1 = .fromDb ↔ dbHasData db = true) ∧
    (lc = [] → db.success = true → db.data = some [] →
       autoSyncResult lc db fromDbCases = (.localData, [])) := by
  have hnot : dbEmptyOrUnreadable db = !dbHasData db := by
    cases db with
    | mk s d e =>
        cases s <;> cases d <;>
          simp [dbEmptyOrUnreadable, dbHasData, List.isEmpty_iff]
  refine ⟨?_, ?_, ?_⟩
  · unfold autoSyncResult
    split_ifs with h1 h2 h3 <;>
      simp_all [List.length_eq_zero, List.length_pos, hnot]
  · unfold autoSyncResult
    split_ifs with h1 h2 h3 <;>
      simp_all [List.length_eq_zero, List.length_pos, hnot]
  · intro h1 h2 h3
    subst h1
    unfold autoSyncResult
    simp [dbEmptyOrUnreadable, dbHasData, h2, h3]

/-- Witness for C6: with both collections empty autoSync takes the
fallback branch with an empty result, and with a non-empty local mirror
against a failed remote read it takes the push branch. -/
theorem autoSync_policy_witness :
    autoSyncResult ([] : List Nat) ⟨true, some [], none⟩ [] =
      (.localData, []) ∧
    (autoSyncResult ([3] : List Nat) ⟨false, none, some "err"⟩ []).1 =
      .toDb := by
  constructor
  · exact (autoSync_policy [] ⟨true, some [], none⟩ []).2.2 rfl rfl rfl
  · exact ((autoSync_policy [3] ⟨false, none, some "err"⟩ []).1).mpr
      ⟨by decide, by decide⟩

/-- Possible outcomes of the `safeLocalStorage.getJSON('allSolutions_cases')`
read as observed by `CaseStudiesSync.getLocalCases` (`caseStudiesSync.ts`
lines 86-99): the stored value is absent, present but not an array, the
read/parse threw, or it is an array of stored records. -/
inductive StorageRead (α : Type) where
  | missing
  | notArray
  | thrown (msg : String)
  | array (l : List α)

/-- The fields of a stored case-study record that the reconciliation
engine inspects: the two timestamps used for `lastUpdated`
(`new Date(c.updatedAt || c.createdAt || 0).getTime()`, with `none`
modelling an absent/falsy field).  All other fields are opaque payload,
and the icon attachment performed by `getLocalCases` maps each record
element-for-element without changing these fields or the length. -/
structure StoredCase where
  updatedAt : Option Nat
  createdAt : Option Nat
  deriving Repr, DecidableEq

/-- `CaseStudiesSync.getLocalCases`: `!saved` and `!Array.isArray(saved)`
return `[]`, the `catch` returns `[]`, and an array is returned
record-for-record. -/
def getLocalCases : StorageRead StoredCase → List StoredCase
  | .missing => []
  | .notArray => []
  | .thrown _ => []
  | .array l => l

/-- The timestamp `new Date(c.updatedAt || c.createdAt || 0).getTime()`
of one record. -/
def caseTimestamp (c : StoredCase) : Nat :=
  c.updatedAt.getD (c.createdAt.getD 0)

/-- One side of the status object built by `CaseStudiesSync.getSyncStatus`. -/
structure CollectionStatus where
  count : Nat
  lastUpdated : Option Nat
  deriving Repr, DecidableEq

/-- The `local` half of `getSyncStatus` (`caseStudiesSync.ts` lines
264-269): `count` is the length of `getLocalCases()` and `lastUpdated` is
`Math.max` of the record timestamps when the list is non-empty, else
`undefined`. -/
def localSyncStatus (o : StorageRead StoredCase) : CollectionStatus :=
  let cases := getLocalCases o
  { count := cases.length
    lastUpdated :=
      if 0 < cases.length then
        some (cases.foldl (fun a c => max a (caseTimestamp c)) 0)
      else none }

/-- C9.  Storage-corruption fail-open: for every failing local-mirror read
(value missing, not an array, or the read threw), `getLocalCases` returns
the empty list and the `local` half of `getSyncStatus` reports count 0
with no timestamp, instead of propagating the corruption. -/
theorem storage_corruption_fail_open :
    (getLocalCases .missing = [] ∧ getLocalCases .notArray = [] ∧
       ∀ msg, getLocalCases (.thrown msg) = []) ∧
    (localSyncStatus .missing = ⟨0, none⟩ ∧
       localSyncStatus .notArray = ⟨0, none⟩ ∧
       ∀ msg, localSyncStatus (.thrown msg) = ⟨0, none⟩) :=
  ⟨⟨rfl, rfl, fun _ => rfl⟩, ⟨rfl, rfl, fun _ => rfl⟩⟩

/-- A `PerformanceMetric` of `performanceMonitor.ts`: name, start/end
clock readings and the computed duration.  Clock readings are modelled as
`Nat` milliseconds; `duration = endTime - startTime` is an `Int`. -/
structure PerfMetric where
  name : String
  startTime : Nat
  endTime : Option Nat
  duration : Option Int
  deriving Repr, DecidableEq

/-- The JS truthiness test `!m.endTime` used by `endMeasure`'s
`findIndex` predicate: true when `endTime` is absent (or the falsy
reading 0). -/
def endTimeFalsy (e : Option Nat) : Bool :=
  match e with
  | none => true
  | some t => t == 0

/-- `PerformanceMonitor.startMeasure(name, metadata?)`
(`performanceMonitor.ts` lines 13-28): pushes a fresh metric with
`startTime = performance.now()`, keeps only the last
`maxMetrics = 100` metrics (`this.metrics.slice(-100)`), and returns the
string `` `${name}_${metric.startTime}` ``. -/
def startMeasure (name : String) (now : Nat) (metrics : List PerfMetric) :
    List PerfMetric × String :=
  (if (metrics ++ [(⟨name, now, none, none⟩ : PerfMetric)]).length > 100 then
     (metrics ++ [(⟨name, now, none, none⟩ : PerfMetric)]).drop
       ((metrics ++ [(⟨name, now, none, none⟩ : PerfMetric)]).length - 100)
   else metrics ++ [(⟨name, now, none, none⟩ : PerfMetric)],
   name ++ "_" ++ toString now)

/-- The `findIndex`-and-mutate body of `endMeasure`: find the first metric
whose `name` equals the argument and whose `endTime` is falsy, set its
`endTime`/`duration`, and return the duration; return `null` (`none`) when
no such metric exists. -/
def endMeasureGo (key : String) (now : Nat) :
    List PerfMetric → List PerfMetric × Option Int
  | [] => ([], none)
  | m :: rest =>
      if m.name = key ∧ endTimeFalsy m.endTime = true then
        (⟨m.name, m.startTime, some now,
            some ((now : Int) - m.startTime)⟩ :: rest,
         some ((now : Int) - m.startTime))
      else
        ((m :: (endMeasureGo key now rest).1), (endMeasureGo key now rest).2)

/-- `PerformanceMonitor.endMeasure(name)` (`performanceMonitor.ts` lines
30-50): its argument is matched against the `name` field of the stored
metrics, not against the string returned by `startMeasure`. -/
def endMeasure (key : String) (now : Nat) (metrics : List PerfMetric) :
    List PerfMetric × Option Int :=
  endMeasureGo key now metrics

/-- C7 counterexample.  Passing the handle returned by
`startMeasure("op")` (the string `"op_5"` for a start reading of 5) to
`endMeasure` finds no metric — it returns `null` and completes nothing
(the metrics list is unchanged) — because `endMeasure` matches its
argument against the metric `name`, not the returned handle. -/
theorem endMeasure_of_handle_returns_null :
    (endMeasure (startMeasure "op" 5 []).2 9 (startMeasure "op" 5 []).1).2 =
      none ∧
    (endMeasure (startMeasure "op" 5 []).2 9 (startMeasure "op" 5 []).1).1 =
      (startMeasure "op" 5 []).1 := by
  constructor <;> rfl

theorem endMeasureGo_append_fresh (key : String) (now : Nat)
    (fresh : PerfMetric) (hname : fresh.name = key)
    (hend : endTimeFalsy fresh.endTime = true) :
    ∀ l : List PerfMetric,
      (∀ m ∈ l, ¬(m.name = key ∧ endTimeFalsy m.endTime = true)) →
      (endMeasureGo key now (l ++ [fresh])).2 =
        some ((now : Int) - fresh.startTime)
  | [], _ => by simp [endMeasureGo, hname, hend]
  | m :: l, h => by
      have hm := h m (List.mem_cons_self _ _)
      simp only [List.cons_append, endMeasureGo, if_neg hm]
      exact endMeasureGo_append_fresh key now fresh hname hend l
        (fun x hx => h x (List.mem_cons_of_mem _ hx))

/-- C7 amended.  `endMeasure` must be passed the measurement *name*, not
the handle returned by `startMeasure`: if no unfinished metric with that
name is already pending, then `endMeasure(name)` after
`startMeasure(name)` completes the new measurement and returns its
elapsed duration `t2 - t1` in milliseconds (the fresh metric is appended
last, so the capacity eviction of `startMeasure` never removes it). -/
theorem endMeasure_by_name (name : String) (t1 t2 : Nat)
    (s : List PerfMetric)
    (h : ∀ m ∈ s, ¬(m.name = name ∧ endTimeFalsy m.endTime = true)) :
    (endMeasure name t2 (startMeasure name t1 s).1).2 =
      some ((t2 : Int) - t1) := by
  unfold startMeasure endMeasure
  by_cases hlen : (s ++ [(⟨name, t1, none, none⟩ : PerfMetric)]).length > 100
  · rw [if_pos hlen]
    have hk : (s ++ [(⟨name, t1, none, none⟩ : PerfMetric)]).length - 100 ≤
        s.length := by
      simp only [List.length_append, List.length_singleton] at *
      omega
    rw [List.drop_append_of_le_length hk]
    exact endMeasureGo_append_fresh name t2 ⟨name, t1, none, none⟩ rfl rfl
      (s.drop _) (fun m hm => h m (List.mem_of_mem_drop hm))
  · rw [if_neg hlen]
    exact endMeasureGo_append_fresh name t2 ⟨name, t1, none, none⟩ rfl rfl s h

/-- Witness for C7's amended theorem: `startMeasure("op")` at reading 5
followed by `endMeasure("op")` at reading 9 returns a duration of 4 ms. -/
theorem endMeasure_by_name_witness :
    (endMeasure "op" 9 (startMeasure "op" 5 []).1).2 = some 4 := by
  have h := endMeasure_by_name "op" 5 9 [] (by intro m hm; simp at hm)
  rw [h]
  norm_num

/-- The `type` union of a `DbOperation` in `dbMonitor.ts`. -/
inductive DbOpType where
  | read
  | write
  | delete
  | sync
  deriving Repr, DecidableEq

/-- An operation record of the `DatabaseMonitor` (`interface DbOperation`
in `dbMonitor.ts`); `id` and `timestamp` are produced environmentally by
`generateId()` / `Date.now()` and arrive as part of the record. -/
structure DbOperation where
  id : String
  type : DbOpType
  timestamp : Nat
  duration : Option Nat
  success : Bool
  recordCount : Option Nat
  error : Option String
  deriving Repr, DecidableEq

/-- `DatabaseMonitor.logOperation` (`dbMonitor.ts` lines 23-54) acting on
`this.operations`: `unshift` the new record (newest first), then
`slice(0, 100)` once the length exceeds `maxOperations = 100`. -/
def logOperation (op : DbOperation) (operations : List DbOperation) :
    List DbOperation :=
  if (op :: operations).length > 100 then (op :: operations).take 100
  else op :: operations

/-- `DatabaseMonitor.getRecentOperations(limit)` (`dbMonitor.ts` lines
103-105): `this.operations.slice(0, limit)`. -/
def getRecentOperations (limit : Nat) (operations : List DbOperation) :
    List DbOperation :=
  operations.take limit

theorem logOperation_eq_take (op : DbOperation) (ops : List DbOperation)
    (h : ops.length ≤ 100) : logOperation op ops = (op :: ops).take 100 := by
  unfold logOperation
  split_ifs with hl
  · rfl
  · exact (List.take_of_length_le (by simp at hl ⊢; omega)).symm

theorem take_append_take {α : Type} (a b : List α) (n : Nat) :
    (a ++ b.take n).take n = (a ++ b).take n := by
  rw [List.take_append_eq_append_take, List.take_append_eq_append_take,
    List.take_take, Nat.min_eq_left (Nat.sub_le _ _)]

theorem foldl_logOperation (l : List DbOperation) :
    ∀ acc : List DbOperation, acc.length ≤ 100 →
      List.foldl (fun a o => logOperation o a) acc l =
        (l.reverse ++ acc).take 100 := by
  induction l with
  | nil =>
      intro acc h
      simp only [List.foldl_nil, List.reverse_nil, List.nil_append]
      exact (List.take_of_length_le h).symm
  | cons x l ih =>
      intro acc h
      have hlen : ((x :: acc).take 100).length ≤ 100 := by
        rw [List.length_take]
        exact Nat.min_le_left _ _
      rw [List.foldl_cons, logOperation_eq_take x acc h, ih _ hlen,
        take_append_take]
      simp [List.reverse_cons, List.append_assoc]

/-- C8.  Ring buffer invariant of the Operation Monitor: after any
sequence of `logOperation` calls starting from the empty history, the
operations list is the newest-first reversal truncated to 100 records
(so it never exceeds 100); and when a 101st record is inserted, the
oldest (first-inserted) record is evicted, so `getRecentOperations(100)`
does not include it. -/
theorem ringBuffer_invariant (l : List DbOperation) :
    (List.foldl (fun a o => logOperation o a) [] l).length ≤ 100 ∧
    List.foldl (fun a o => logOperation o a) [] l = l.reverse.take 100 ∧
    (∀ (a : DbOperation) (t : List DbOperation), l = a :: t →
       t.length = 100 → l.Nodup →
       a ∉ getRecentOperations 100
             (List.foldl (fun a o => logOperation o a) [] l)) := by
  have hfold := foldl_logOperation l [] (by simp)
  rw [List.append_nil] at hfold
  refine ⟨?_, hfold, ?_⟩
  · rw [hfold, List.length_take]
    exact Nat.min_le_left _ _
  · rintro a t rfl ht hnodup
    have hlt : t.reverse.length = 100 := by simpa using ht
    have h1 : List.foldl (fun a o => logOperation o a) [] (a :: t) =
        t.reverse := by
      rw [hfold]
      simp only [List.reverse_cons]
      rw [List.take_append_eq_append_take,
        List.take_of_length_le (le_of_eq hlt), hlt, Nat.sub_self]
      simp
    rw [getRecentOperations, h1,
      List.take_of_length_le (le_of_eq hlt)]
    intro hmem
    have : a ∈ t := by simpa using hmem
    exact (List.nodup_cons.mp hnodup).1 this

/-- A concrete operation record with a distinct id and timestamp. -/
def mkDbOp (i : Nat) : DbOperation :=
  ⟨"op_" ++ toString i, .read, i, none, true, none, none⟩

/-- The 100 records logged after the first one in the C8 witness. -/
def opsTail : List DbOperation := (List.range 100).map (fun i => mkDbOp (i + 1))

/-- Witness for C8: inserting 101 distinct records leaves the
first-inserted one outside `getRecentOperations 100`. -/
theorem ringBuffer_invariant_witness :
    mkDbOp 0 ∉ getRecentOperations 100
      (List.foldl (fun a o => logOperation o a) [] (mkDbOp 0 :: opsTail)) := by
  refine (ringBuffer_invariant (mkDbOp 0 :: opsTail)).2.2 (mkDbOp 0) opsTail
    rfl ?_ ?_
  · simp [opsTail]
  · decide

/-- A failure envelope as resolved (not rejected) by `makeRequest` for a
failed `getAllCaseStudies` read. -/
def failedListEnv : ApiResponse (List Nat) :=
  ⟨false, none, some "HTTP error! status: 500"⟩

/-- C10 counterexample.  With `ttl = CACHE_TTL.MEDIUM = 300000` and the
default `refreshThreshold = 0.8`: a miss at `t = 0` starts the fetch,
which settles at `t = 10` with a failure envelope — the envelope is
stored in the cache (expiry 300010), as the claim says.  But the
subsequent `getOrFetch` call at `t = 120000`, well within the 5-minute
TTL, while returning the cached failure envelope, raises the `fetchFn`
invocation count from 1 to 2: it contacts the remote store (background
refresh), contradicting "without contacting the remote store". -/
theorem cached_failure_refresh_contacts_remote :
    (cacheRun 300000 (8 / 10)
        (⟨none, 0, 0⟩ : KeyCacheState (ApiResponse (List Nat)))
        [CacheEv.call 0, CacheEv.complete 10 (some failedListEnv)]).cache
      = some ⟨failedListEnv, 10, 300010⟩ ∧
    (cacheRun 300000 (8 / 10)
        (⟨none, 0, 0⟩ : KeyCacheState (ApiResponse (List Nat)))
        [CacheEv.call 0, CacheEv.complete 10 (some failedListEnv)]).fetches
      = 1 ∧
    (getOrFetchStep 300000 (8 / 10)
        (cacheRun 300000 (8 / 10)
          (⟨none, 0, 0⟩ : KeyCacheState (ApiResponse (List Nat)))
          [CacheEv.call 0, CacheEv.complete 10 (some failedListEnv)])
        120000).2 = some failedListEnv ∧
    (getOrFetchStep 300000 (8 / 10)
        (cacheRun 300000 (8 / 10)
          (⟨none, 0, 0⟩ : KeyCacheState (ApiResponse (List Nat)))
          [CacheEv.call 0, CacheEv.complete 10 (some failedListEnv)])
        120000).1.fetches = 2 := by
  refine ⟨?_, ?_, ?_, ?_⟩ <;>
    norm_num [cacheRun, cacheStep, getOrFetchStep, completeStep, List.foldl]

/-- C10 amended.  Failure envelopes are cached exactly like successes: a
settled fetch stores whatever envelope it resolved with (failures
included) under the read key with a fresh TTL; every later `getOrFetch`
call that finds an entry returns the cached envelope as-is; such a call
leaves the remote store uncontacted exactly while the entry's remaining
lifetime is at least `ttl * refreshThreshold`, and once the remaining
lifetime drops below `ttl * refreshThreshold` each call additionally
starts a background refresh that contacts the remote store (and on
resolution replaces the envelope, so the cached failure does not outlive
a successful refresh). -/
theorem cached_failure_envelope_policy (ttl r : ℚ)
    (s : KeyCacheState (ApiResponse (List Nat)))
    (item : CacheItem (ApiResponse (List Nat))) (t : ℚ)
    (h : s.cache = some item) :
    (getOrFetchStep ttl r s t).2 = some item.data ∧
    (ttl * r ≤ item.expiry - t → (getOrFetchStep ttl r s t).1 = s) ∧
    (item.expiry - t < ttl * r →
       (getOrFetchStep ttl r s t).1.fetches = s.fetches + 1 ∧
       (getOrFetchStep ttl r s t).1.inflight = s.inflight + 1) ∧
    (∀ (s2 : KeyCacheState (ApiResponse (List Nat))) (t2 : ℚ)
       (env : ApiResponse (List Nat)), s2.inflight ≠ 0 →
       (completeStep ttl s2 t2 (some env)).cache = some ⟨env, t2, t2 + ttl⟩) := by
  refine ⟨?_, ?_, ?_, ?_⟩
  · simp only [getOrFetchStep, h]
    split_ifs <;> rfl
  · intro hge
    simp only [getOrFetchStep, h]
    rw [if_neg (not_lt.mpr hge)]
  · intro hlt
    simp [getOrFetchStep, h, hlt]
  · intro s2 t2 env h2
    unfold completeStep
    rw [if_neg h2]

/-- Witness for C10's amended theorem: with the cached failure envelope
stored at `t = 10` (`ttl = 300000`, threshold 0.8), a call at
`t = 120000` returns the cached failure envelope and starts one more
fetch. -/
theorem cached_failure_envelope_policy_witness :
    (getOrFetchStep 300000 (8 / 10)
        (⟨some ⟨failedListEnv, 10, 300010⟩, 0, 1⟩ :
          KeyCacheState (ApiResponse (List Nat))) 120000).2
      = some failedListEnv ∧
    (getOrFetchStep 300000 (8 / 10)
        (⟨some ⟨failedListEnv, 10, 300010⟩, 0, 1⟩ :
          KeyCacheState (ApiResponse (List Nat))) 120000).1.fetches = 2 := by
  have h := cached_failure_envelope_policy 300000 (8 / 10)
    (⟨some ⟨failedListEnv, 10, 300010⟩, 0, 1⟩ :
      KeyCacheState (ApiResponse (List Nat)))
    ⟨failedListEnv, 10, 300010⟩ 120000 rfl
  exact ⟨h.1, (h.2.2.1 (by norm_num)).1⟩

end RocketTech
